import Mathlib

/-!
Verification of the support-center appointment scheduling module.

The embedding models the Odoo models and wizards of the repository:
times are rationals counting hours since an epoch placed at a Monday
00:00 (so the weekday index of calendar day d is d mod 7, Monday = 0),
durations are rationals counting hours, a record store is a list of
records, and an Odoo search over a domain is a list filter.  A raised
ValidationError/UserError aborts the transaction, so a failing
operation returns an error and leaves the store unchanged.

Odoo domain semantics used throughout: comparing a NULL column with
< or > matches nothing, and a search on a model with an active field
implicitly filters active = True.
-/

namespace SupportCenter

/-- The status selection of support.appointment. -/
inductive Status where
  | draft
  | confirmed
  | in_progress
  | completed
  | cancelled
deriving DecidableEq

/-- One support.appointment record.  scheduled_date is a required field, so
it is modelled as always set; end_datetime is computed (see end_datetime). -/
structure Appointment where
  id : Nat
  customer_id : Nat
  technician_id : Nat
  scheduled_date : ℚ
  duration : ℚ
  status : Status
  send_confirmation_email : Bool
  send_reminder_email : Bool
  confirmation_sent : Bool
  reminder_sent : Bool
  active : Bool
deriving DecidableEq

/-- compute_end_datetime: end_datetime = scheduled_date + duration when both
are truthy, otherwise False.  A duration of 0.0 is falsy in Python, so a
zero-duration appointment has end_datetime = False (modelled as none). -/
def end_datetime (a : Appointment) : Option ℚ :=
  if a.duration ≠ 0 then some (a.scheduled_date + a.duration) else none

/-- Domain term (field, LESS-THAN, value) where the value may be NULL:
comparison with NULL matches nothing. -/
def dlt (x : ℚ) : Option ℚ → Bool
  | some y => decide (x < y)
  | none => false

/-- Domain term (field, GREATER-THAN, value) where the stored field may be
NULL: a NULL field matches no inequality. -/
def dgt : Option ℚ → ℚ → Bool
  | some x, y => decide (y < x)
  | none, _ => false

/-- status in [confirmed, in_progress], the blocking statuses of every
conflict search in the module. -/
def blocking (s : Status) : Bool :=
  decide (s = .confirmed) || decide (s = .in_progress)

/-- The conflict search shared by check_appointment_validity,
check_reschedule_conflicts, check_technician_availability and the slot
finders: domain [(technician_id, =, tech), (scheduled_date, <, qEnd),
(end_datetime, >, qStart), (status, in, [confirmed, in_progress])], plus an
optional (id, !=, excl) term; the implicit active = True filter applies. -/
def findConflicts (store : List Appointment) (tech : Nat) (qStart : ℚ)
    (qEnd : Option ℚ) (excl : Option Nat) : List Appointment :=
  store.filter fun a =>
    a.active && (a.technician_id == tech) && dlt a.scheduled_date qEnd
      && dgt (end_datetime a) qStart && blocking a.status
      && (match excl with
          | some i => !(a.id == i)
          | none => true)

/-- The error kinds raised by the module: each constructor stands for one
raise site.  cancel_in_progress is the only UserError; the rest are
ValidationErrors (no_such_record models a dangling reference). -/
inductive Err where
  | past_date
  | conflict
  | not_technician
  | reschedule_conflict
  | reschedule_past
  | reschedule_completed
  | reschedule_cancelled
  | reschedule_no_permission
  | already_cancelled
  | cancel_completed
  | cancel_no_permission
  | cancel_in_progress
  | settings_hours_order
  | settings_hours_range
  | settings_days_format
  | settings_positive
  | settings_duplicate_technician
  | no_such_record
deriving DecidableEq

/-- UserError is the recoverable, user-facing error class; ValidationError is
not.  Only the in-progress cancellation guard raises UserError. -/
def Err.isUserError : Err → Bool
  | .cancel_in_progress => true
  | _ => false

/-- Outcome of an operation: ok with the new store, or a raised error (the
transaction rolls back, so an error leaves the store as it was). -/
inductive Res (α : Type) where
  | ok : α → Res α
  | error : Err → Res α
deriving DecidableEq

/-- check_appointment_validity for one record against the store that already
contains it (the search excludes the record itself by id): reject a
scheduled_date not strictly in the future, then reject conflicts. -/
def check_appointment_validity (store : List Appointment) (now : ℚ)
    (a : Appointment) : Option Err :=
  if a.scheduled_date ≤ now then some .past_date
  else if (findConflicts store a.technician_id a.scheduled_date
      (end_datetime a) (some a.id)).isEmpty then none
  else some .conflict

/-- check_technician_group: the assigned user must be in the support
technician group (techOk is the capability oracle). -/
def check_technician_group (techOk : Nat → Bool) (a : Appointment) :
    Option Err :=
  if techOk a.technician_id then none else some .not_technician

/-- Model create: insert the record, then run the constraints that fire at
creation (check_appointment_validity, then check_technician_group, in
declaration order). -/
def createAppointment (techOk : Nat → Bool) (store : List Appointment)
    (now : ℚ) (a : Appointment) : Res (List Appointment) :=
  let store' := store ++ [a]
  match check_appointment_validity store' now a with
  | some e => .error e
  | none =>
    match check_technician_group techOk a with
    | some e => .error e
    | none => .ok store'

/-- The vals dictionary of a write on support.appointment, restricted to the
fields the claims touch; a none entry is a field absent from vals. -/
structure WriteVals where
  scheduled_date : Option ℚ := none
  technician_id : Option Nat := none
  duration : Option ℚ := none
  status : Option Status := none
deriving DecidableEq

/-- Apply a vals dictionary to one record. -/
def applyVals (v : WriteVals) (a : Appointment) : Appointment :=
  { a with
    scheduled_date := v.scheduled_date.getD a.scheduled_date
    technician_id := v.technician_id.getD a.technician_id
    duration := v.duration.getD a.duration
    status := v.status.getD a.status }

/-- Model write on one record: apply vals, then re-run exactly the
constraints whose declared fields appear in vals
(check_appointment_validity fires on scheduled_date, technician_id or
duration; check_technician_group fires on technician_id; neither fires on a
bare status write). -/
def writeAppointment (techOk : Nat → Bool) (store : List Appointment)
    (now : ℚ) (i : Nat) (v : WriteVals) : Res (List Appointment) :=
  let store' := store.map fun a => if a.id == i then applyVals v a else a
  match store'.find? fun a => a.id == i with
  | none => .error .no_such_record
  | some a' =>
    match (if v.scheduled_date.isSome || v.technician_id.isSome
        || v.duration.isSome
        then check_appointment_validity store' now a' else none) with
    | some e => .error e
    | none =>
      match (if v.technician_id.isSome
          then check_technician_group techOk a' else none) with
      | some e => .error e
      | none => .ok store'

/-- action_confirm: a plain status write (no constraint re-runs, since
status is not among the constrained fields). -/
def action_confirm (store : List Appointment) (i : Nat) : List Appointment :=
  store.map fun a => if a.id == i then { a with status := .confirmed } else a

/-- action_start: a plain status write to in_progress. -/
def action_start (store : List Appointment) (i : Nat) : List Appointment :=
  store.map fun a =>
    if a.id == i then { a with status := .in_progress } else a

/-- action_complete: a plain status write to completed. -/
def action_complete (store : List Appointment) (i : Nat) : List Appointment :=
  store.map fun a => if a.id == i then { a with status := .completed } else a

/-- action_cancel_direct: a plain status write to cancelled. -/
def action_cancel_direct (store : List Appointment) (i : Nat) :
    List Appointment :=
  store.map fun a => if a.id == i then { a with status := .cancelled } else a

/-- Calendar day index (days since the epoch Monday) of the instant t: the
day that now.replace(hour, minute, second, microsecond) keeps. -/
def dayIndex (t : ℚ) : Int := Int.fdiv ⌊t⌋ 24

/-- find_available_slots (quick-create wizard): walk 7 days starting today,
skip weekday index ≥ 5, scan the whole hours of range(8, 17) of each kept
day, keep a slot when the conflict search for [slot, slot + duration) over
the blocking appointments of the technician is empty, and stop at 5 slots. -/
def find_available_slots (store : List Appointment) (tech : Nat) (dur : ℚ)
    (now : ℚ) : List ℚ :=
  (((((List.range 7).map fun o : ℕ => dayIndex now + (o : Int)).filter
        fun d => decide (d.emod 7 < 5)).flatMap fun d =>
      (List.range 9).map fun h : ℕ => (d : ℚ) * 24 + 8 + (h : ℚ)).filter
    fun s => (findConflicts store tech s (some (s + dur)) none).isEmpty).take 5

/-- The mutable state of the reschedule wizard: appointment_id names the target,
duration is a related field of the target, conflicts_found is the stored
flag the onchange maintains. -/
structure RescheduleWizard where
  appointment_id : Nat
  new_date : ℚ
  new_technician_id : Option Nat
  conflicts_found : Bool
deriving DecidableEq

/-- check_reschedule_conflicts: the recomputed conflicts_found flag, from a
search over the checked technician (the new one, else the current one) and
[new_date, new_date + duration), excluding the target itself. -/
def check_reschedule_conflicts (store : List Appointment) (app : Appointment)
    (w : RescheduleWizard) : Bool :=
  let tech := w.new_technician_id.getD app.technician_id
  !(findConflicts store tech w.new_date
      (some (w.new_date + app.duration)) (some app.id)).isEmpty

/-- onchange_check_conflicts: recompute the flag only when new_date and
duration are truthy; a zero duration is falsy, so the flag then keeps its
previous value. -/
def onchange_check_conflicts (store : List Appointment) (app : Appointment)
    (w : RescheduleWizard) : RescheduleWizard :=
  if app.duration ≠ 0 then
    { w with conflicts_found := check_reschedule_conflicts store app w }
  else w

/-- validate_reschedule, in raise order: the stored conflicts flag, then a
past new date, then a completed target, then a cancelled target, then the
edit permission (canEdit is the can_edit() oracle for the acting user). -/
def validate_reschedule (now : ℚ) (canEdit : Bool) (app : Appointment)
    (w : RescheduleWizard) : Option Err :=
  if w.conflicts_found then some .reschedule_conflict
  else if w.new_date ≤ now then some .reschedule_past
  else if app.status = .completed then some .reschedule_completed
  else if app.status = .cancelled then some .reschedule_cancelled
  else if !canEdit then some .reschedule_no_permission
  else none

/-- action_reschedule: validate, then write scheduled_date (and
technician_id when a new technician was chosen) on the target; the write
re-fires check_appointment_validity. -/
def action_reschedule (techOk : Nat → Bool) (store : List Appointment)
    (now : ℚ) (canEdit : Bool) (w : RescheduleWizard) :
    Res (List Appointment) :=
  match store.find? fun a => a.id == w.appointment_id with
  | none => .error .no_such_record
  | some app =>
    match validate_reschedule now canEdit app w with
    | some e => .error e
    | none =>
      writeAppointment techOk store now w.appointment_id
        { scheduled_date := some w.new_date
          technician_id := w.new_technician_id }

/-- The cancellation reason selection of the cancel wizard. -/
inductive CancelReason where
  | customer_request
  | customer_unavailable
  | technician_unavailable
  | emergency
  | equipment_issue
  | weather
  | rescheduled
  | duplicate
  | other
deriving DecidableEq

/-- The state of the cancel wizard. -/
structure CancelWizard where
  appointment_id : Nat
  reason : CancelReason
  reason_details : String := ""
  notify_customer : Bool := true
  notify_technician : Bool := true
  refund_required : Bool := false
  refund_notes : String := ""
deriving DecidableEq

/-- onchange_reason_defaults: reason-based presets of the notification and
refund toggles. -/
def onchange_reason_defaults (w : CancelWizard) : CancelWizard :=
  match w.reason with
  | .customer_request =>
    { w with notify_customer := false, notify_technician := true,
             refund_required := true }
  | .technician_unavailable =>
    { w with notify_customer := true, notify_technician := false,
             refund_required := false }
  | .rescheduled =>
    { w with notify_customer := false, notify_technician := false,
             refund_required := false }
  | _ =>
    { w with notify_customer := true, notify_technician := true,
             refund_required := false }

/-- validate_cancellation, in raise order: already cancelled, completed,
edit permission, then the in-progress guard, which raises UserError. -/
def validate_cancellation (canEdit : Bool) (app : Appointment) : Option Err :=
  if app.status = .cancelled then some .already_cancelled
  else if app.status = .completed then some .cancel_completed
  else if !canEdit then some .cancel_no_permission
  else if app.status = .in_progress then some .cancel_in_progress
  else none

/-- action_cancel_appointment: validate, then write status = cancelled on
the target (a bare status write fires no constraint); the notification and
refund side effects are external. -/
def action_cancel_appointment (store : List Appointment) (canEdit : Bool)
    (w : CancelWizard) : Res (List Appointment) :=
  match store.find? fun a => a.id == w.appointment_id with
  | none => .error .no_such_record
  | some app =>
    match validate_cancellation canEdit app with
    | some e => .error e
    | none =>
      .ok (store.map fun a =>
        if a.id == w.appointment_id then { a with status := .cancelled }
        else a)

/-- One support.appointment.settings record; technician_id = none is a
global record. -/
structure SettingsRecord where
  id : Nat
  name : String
  technician_id : Option Nat
  working_hours_start : ℚ := 8
  working_hours_end : ℚ := 17
  working_days : String := "1,2,3,4,5"
  max_daily_appointments : Int := 8
  default_duration : ℚ := 1
  advance_booking_days : Int := 30
  buffer_time : ℚ := mkRat 1 2
  auto_confirm_emails : Bool := false
  auto_reminder_emails : Bool := false
deriving DecidableEq

/-- check_working_hours: start < end and both within [0, 24]. -/
def check_working_hours (r : SettingsRecord) : Option Err :=
  if r.working_hours_end ≤ r.working_hours_start then some .settings_hours_order
  else if r.working_hours_start < 0 ∨ 24 < r.working_hours_start then
    some .settings_hours_range
  else if r.working_hours_end < 0 ∨ 24 < r.working_hours_end then
    some .settings_hours_range
  else none

/-- int(piece.strip()) over the comma-separated pieces; none when any piece
fails to parse. -/
def parse_working_days (s : String) : Option (List Int) :=
  (s.splitOn (",")).mapM fun piece => piece.trim.toInt?

/-- check_working_days: an empty string is falsy and skipped; otherwise
every piece must parse to an integer in 1..7. -/
def check_working_days (r : SettingsRecord) : Option Err :=
  if r.working_days = "" then none
  else
    match parse_working_days r.working_days with
    | none => some .settings_days_format
    | some days =>
      if days.any fun d => decide (d < 1) || decide (7 < d) then
        some .settings_days_format
      else none

/-- check_positive_values: max_daily_appointments and advance_booking_days
must be positive. -/
def check_positive_values (r : SettingsRecord) : Option Err :=
  if r.max_daily_appointments ≤ 0 then some .settings_positive
  else if r.advance_booking_days ≤ 0 then some .settings_positive
  else none

/-- check_unique_technician: only when the record names a technician does it
search for another record with the same technician; a record with no
technician (a global record) is never checked. -/
def check_unique_technician (store : List SettingsRecord)
    (r : SettingsRecord) : Option Err :=
  match r.technician_id with
  | none => none
  | some t =>
    if store.any fun x => x.technician_id == some t && !(x.id == r.id) then
      some .settings_duplicate_technician
    else none

/-- Model create of a settings record: insert, then run the four constraints
in declaration order. -/
def createSettings (store : List SettingsRecord) (r : SettingsRecord) :
    Res (List SettingsRecord) :=
  let store' := store ++ [r]
  match check_working_hours r with
  | some e => .error e
  | none =>
    match check_working_days r with
    | some e => .error e
    | none =>
      match check_positive_values r with
      | some e => .error e
      | none =>
        match check_unique_technician store' r with
        | some e => .error e
        | none => .ok store'

/-- The per-technician uniqueness invariant: no two records with distinct
ids name the same technician. -/
def PerTechUnique (store : List SettingsRecord) : Prop :=
  ∀ a ∈ store, ∀ b ∈ store, a.id ≠ b.id → ∀ t : Nat,
    a.technician_id = some t → b.technician_id ≠ some t

/-- The reminder window of check_upcoming_reminders: the calendar day that
contains now + 24h, as [start, start + 24). -/
def reminderWindow (now : ℚ) : ℚ × ℚ :=
  let s : ℚ := (dayIndex (now + 24) : ℚ) * 24
  (s, s + 24)

/-- The selection of the reminder sweep: scheduled in the window, blocking
status, reminders enabled and not yet sent (plus the implicit active
filter). -/
def reminderDue (now : ℚ) (a : Appointment) : Bool :=
  a.active && decide ((reminderWindow now).1 ≤ a.scheduled_date)
    && decide (a.scheduled_date < (reminderWindow now).2)
    && blocking a.status && a.send_reminder_email && !a.reminder_sent

/-- check_upcoming_reminders: select once, then send to each selected
record; send_reminder_email sends and sets reminder_sent only when the mail
template exists.  Returns the new store and the ids a reminder was sent
to. -/
def check_upcoming_reminders (templateExists : Bool)
    (store : List Appointment) (now : ℚ) : List Appointment × List Nat :=
  let selected := store.filter (reminderDue now)
  if templateExists then
    (store.map fun a =>
      if reminderDue now a then { a with reminder_sent := true } else a,
     selected.map fun a => a.id)
  else (store, [])

/-- Two records overlap when each starts before the other ends (the
half-open test the searches of the module implement, on the computed
end_datetime). -/
def overlaps (a b : Appointment) : Bool :=
  dlt a.scheduled_date (end_datetime b) && dlt b.scheduled_date (end_datetime a)

/-- The no-double-booking invariant of the spec: no two distinct blocking
appointments of one technician overlap. -/
def NoDoubleBooking (store : List Appointment) : Prop :=
  ∀ a ∈ store, ∀ b ∈ store, a.id ≠ b.id → blocking a.status = true →
    blocking b.status = true → a.technician_id = b.technician_id →
    overlaps a b = false

/-- applyVals never changes the id. -/
theorem applyVals_id (v : WriteVals) (a : Appointment) :
    (applyVals v a).id = a.id := rfl

/-- Finding a record by id after a by-id update finds the updated record. -/
theorem find?_map_update (store : List Appointment) (i : Nat) (v : WriteVals) :
    ((store.map fun a => if a.id == i then applyVals v a else a).find?
        fun a => a.id == i)
      = (store.find? fun a => a.id == i).map fun a => applyVals v a := by
  induction store with
  | nil => rfl
  | cons a t ih =>
    simp only [List.map_cons]
    by_cases h : a.id = i
    · rw [if_pos (by simpa using h)]
      rw [List.find?_cons_of_pos _ (by simp [applyVals_id, h]),
        List.find?_cons_of_pos _ (by simp [h])]
      rfl
    · rw [if_neg (by simpa using h)]
      rw [List.find?_cons_of_neg _ (by simp [h]),
        List.find?_cons_of_neg _ (by simp [h])]
      exact ih

/-- A conflict search that excludes id i is unchanged by an update of the
records with id i: the updated records are excluded on both sides and every
other record is untouched. -/
theorem findConflicts_map_update (store : List Appointment) (tech : Nat)
    (qs : ℚ) (qe : Option ℚ) (i : Nat) (v : WriteVals) :
    findConflicts (store.map fun a => if a.id == i then applyVals v a else a)
      tech qs qe (some i) = findConflicts store tech qs qe (some i) := by
  induction store with
  | nil => rfl
  | cons a t ih =>
    simp only [List.map_cons]
    by_cases h : a.id = i
    · rw [if_pos (by simpa using h)]
      simp only [findConflicts] at ih ⊢
      rw [List.filter_cons, List.filter_cons,
        if_neg (by simp [applyVals_id, h]), if_neg (by simp [h])]
      exact ih
    · rw [if_neg (by simpa using h)]
      simp only [findConflicts] at ih ⊢
      rw [List.filter_cons, List.filter_cons, ih]

/-- A reschedule that passes validation leaves a store whose conflicts flag
was off, a future new date, a target neither completed nor cancelled, and
edit permission. -/
theorem validate_reschedule_none (now : ℚ) (canEdit : Bool)
    (app : Appointment) (w : RescheduleWizard)
    (h : validate_reschedule now canEdit app w = none) :
    w.conflicts_found = false ∧ now < w.new_date
      ∧ app.status ≠ .completed ∧ app.status ≠ .cancelled
      ∧ canEdit = true := by
  rw [validate_reschedule] at h
  split_ifs at h with h1 h2 h3 h4 h5
  exact ⟨by simpa using h1, by simpa [not_le] using h2, h3, h4,
    by simpa using h5⟩

/-- The vals dictionary action_reschedule writes. -/
def rescheduleVals (w : RescheduleWizard) : WriteVals :=
  { scheduled_date := some w.new_date, technician_id := w.new_technician_id }

/-- action_reschedule unfolded at a resolved target. -/
theorem reschedule_unfold (techOk : Nat → Bool) (store : List Appointment)
    (now : ℚ) (canEdit : Bool) (w : RescheduleWizard) (app : Appointment)
    (hfind : (store.find? fun a => a.id == w.appointment_id) = some app) :
    action_reschedule techOk store now canEdit w
      = match validate_reschedule now canEdit app w with
        | some e => .error e
        | none =>
          writeAppointment techOk store now w.appointment_id
            (rescheduleVals w) := by
  rw [action_reschedule, hfind]
  rfl

instance NoDoubleBooking.decidable (store : List Appointment) :
    Decidable (NoDoubleBooking store) := by
  unfold NoDoubleBooking; infer_instance

instance PerTechUnique.decidable (store : List SettingsRecord) :
    Decidable (PerTechUnique store) := by
  unfold PerTechUnique; infer_instance

/-- A concrete appointment with the given id, technician, start, duration
and status; the mail flags are off and the record is active. -/
def mkApp (i tech : Nat) (d dur : ℚ) (st : Status) : Appointment :=
  { id := i, customer_id := i, technician_id := tech, scheduled_date := d,
    duration := dur, status := st, send_confirmation_email := false,
    send_reminder_email := false, confirmation_sent := false,
    reminder_sent := false, active := true }

/-- The store reached by creating two overlapping drafts for technician 1
and then confirming both. -/
def doubleBookedStore : List Appointment :=
  action_confirm (action_confirm
    [mkApp 1 1 10 1 .draft, mkApp 2 1 10 1 .draft] 1) 2

/-- C1: the no-double-booking invariant is NOT preserved by the public
operations.  At now = 0 two identical [10, 11) drafts for technician 1 are
both accepted by create (drafts do not block), and confirming each is a
bare status write that re-runs no conflict constraint, so the final store
holds two confirmed overlapping appointments of one technician. -/
theorem double_booking_reachable_via_confirm :
    createAppointment (fun _ => true) [] 0 (mkApp 1 1 10 1 .draft)
      = .ok [mkApp 1 1 10 1 .draft]
    ∧ createAppointment (fun _ => true) [mkApp 1 1 10 1 .draft] 0
        (mkApp 2 1 10 1 .draft)
      = .ok [mkApp 1 1 10 1 .draft, mkApp 2 1 10 1 .draft]
    ∧ doubleBookedStore
      = [mkApp 1 1 10 1 .confirmed, mkApp 2 1 10 1 .confirmed]
    ∧ ¬ NoDoubleBooking doubleBookedStore := by
  refine ⟨?_, ?_, ?_, ?_⟩ <;> with_unfolding_all decide

/-- C2: the lifecycle actions set their target status unconditionally, so
completed and cancelled are not terminal: action_confirm moves a completed
appointment to confirmed, and action_start moves a cancelled one to
in_progress. -/
theorem lifecycle_actions_ignore_terminal_states :
    action_confirm [mkApp 1 1 10 1 .completed] 1
      = [mkApp 1 1 10 1 .confirmed]
    ∧ action_start [mkApp 1 1 10 1 .cancelled] 1
      = [mkApp 1 1 10 1 .in_progress] := by
  refine ⟨?_, ?_⟩ <;> with_unfolding_all decide

/-- The write a validated reschedule performs, computed: the re-fired
conflict constraint decides the outcome, then the technician-group
constraint when a new technician was written. -/
theorem write_reschedule_eq (techOk : Nat → Bool) (store : List Appointment)
    (now : ℚ) (w : RescheduleWizard) (app : Appointment)
    (hfind : (store.find? fun a => a.id == w.appointment_id) = some app)
    (hne : app.duration ≠ 0) (hnow : now < w.new_date) :
    writeAppointment techOk store now w.appointment_id (rescheduleVals w)
      = (if (findConflicts store (w.new_technician_id.getD app.technician_id)
              w.new_date (some (w.new_date + app.duration))
              (some w.appointment_id)).isEmpty then
          (if w.new_technician_id.isSome
              && !techOk (w.new_technician_id.getD app.technician_id) then
            Res.error .not_technician
          else
            Res.ok (store.map fun a =>
              if a.id == w.appointment_id then applyVals (rescheduleVals w) a
              else a))
        else Res.error .conflict) := by
  have hid : app.id = w.appointment_id := by
    have h := List.find?_some hfind
    simpa using h
  have hfind' := find?_map_update store w.appointment_id (rescheduleVals w)
  rw [hfind] at hfind'
  have happly_end :
      end_datetime (applyVals (rescheduleVals w) app)
        = some (w.new_date + app.duration) := by
    rw [end_datetime,
      if_pos (show (applyVals (rescheduleVals w) app).duration ≠ 0 from hne)]
    rfl
  have hcv : check_appointment_validity
      (store.map fun a =>
        if a.id == w.appointment_id then applyVals (rescheduleVals w) a
        else a)
      now (applyVals (rescheduleVals w) app)
      = (if (findConflicts store (w.new_technician_id.getD app.technician_id)
              w.new_date (some (w.new_date + app.duration))
              (some w.appointment_id)).isEmpty then none
         else some .conflict) := by
    rw [check_appointment_validity,
      if_neg (show ¬((applyVals (rescheduleVals w) app).scheduled_date ≤ now)
        from not_le.mpr hnow),
      happly_end]
    rw [show (applyVals (rescheduleVals w) app).id = w.appointment_id
      from hid]
    rw [show (applyVals (rescheduleVals w) app).technician_id
        = w.new_technician_id.getD app.technician_id from rfl]
    rw [show (applyVals (rescheduleVals w) app).scheduled_date
        = w.new_date from rfl]
    rw [findConflicts_map_update]
  rw [writeAppointment, hfind']
  simp only [Option.map_some']
  rw [hcv]
  have hgrp : check_technician_group techOk (applyVals (rescheduleVals w) app)
      = (if techOk (w.new_technician_id.getD app.technician_id) then none
         else some .not_technician) := rfl
  rw [hgrp]
  by_cases hc : (findConflicts store
      (w.new_technician_id.getD app.technician_id) w.new_date
      (some (w.new_date + app.duration)) (some w.appointment_id)).isEmpty
  · rw [if_pos hc, if_pos hc]
    cases hnt : w.new_technician_id with
    | none =>
      simp only [rescheduleVals, Option.isSome_some, Option.isSome_none,
        Bool.true_or, Bool.or_false, hnt]
      simp
    | some nt =>
      simp only [rescheduleVals, Option.isSome_some, Option.isSome_none,
        Bool.true_or, Bool.or_false, hnt]
      cases ht : techOk ((some nt).getD app.technician_id) <;> simp [ht, hnt]
  · rw [if_neg hc, if_neg hc]
    simp [rescheduleVals]

/-- C5 (amended): for a target appointment with positive duration, the
reschedule operation rejects when the target is completed or cancelled,
rejects when the new start is not strictly in the future, rejects when the
new (technician, [new start, new start + duration)) interval conflicts with
another appointment excluding the target itself (either through the
conflicts flag of the wizard or through the re-fired write constraint); on
success the store is exactly the old store with the scheduled_date of the target
rewritten (and its technician when a new one was given), and the final
end_datetime is exactly the new start plus the duration.  An error rolls
the transaction back, so the appointment is unchanged on every
rejection. -/
theorem action_reschedule_spec :
    ∀ (techOk : Nat → Bool) (store : List Appointment) (now : ℚ)
      (canEdit : Bool) (w : RescheduleWizard) (app : Appointment),
      (store.find? fun a => a.id == w.appointment_id) = some app →
      0 < app.duration →
      ((app.status = .completed ∨ app.status = .cancelled →
          ∃ e, action_reschedule techOk store now canEdit w = .error e)
       ∧ (w.new_date ≤ now →
          ∃ e, action_reschedule techOk store now canEdit w = .error e)
       ∧ (findConflicts store (w.new_technician_id.getD app.technician_id)
            w.new_date (some (w.new_date + app.duration))
            (some w.appointment_id) ≠ [] →
          ∃ e, action_reschedule techOk store now canEdit w = .error e)
       ∧ (∀ s, action_reschedule techOk store now canEdit w = .ok s →
          s = store.map fun a =>
            if a.id == w.appointment_id then
              { a with scheduled_date := w.new_date,
                       technician_id :=
                         w.new_technician_id.getD a.technician_id }
            else a)
       ∧ end_datetime { app with
            scheduled_date := w.new_date,
            technician_id := w.new_technician_id.getD app.technician_id }
          = some (w.new_date + app.duration)) := by
  intro techOk store now canEdit w app hfind hdur
  have hne : app.duration ≠ 0 := ne_of_gt hdur
  have hend : end_datetime { app with
      scheduled_date := w.new_date,
      technician_id := w.new_technician_id.getD app.technician_id }
      = some (w.new_date + app.duration) := by
    simp [end_datetime, hne]
  have hun := reschedule_unfold techOk store now canEdit w app hfind
  cases hv : validate_reschedule now canEdit app w with
  | some e =>
    rw [hv] at hun
    refine ⟨fun _ => ⟨e, hun⟩, fun _ => ⟨e, hun⟩, fun _ => ⟨e, hun⟩,
      fun s hs => ?_, hend⟩
    rw [hun] at hs
    exact Res.noConfusion hs
  | none =>
    obtain ⟨hcf, hnow, hcomp, hcanc, hedit⟩ :=
      validate_reschedule_none _ _ _ _ hv
    rw [hv] at hun
    rw [write_reschedule_eq techOk store now w app hfind hne hnow] at hun
    refine ⟨fun hst => ?_, fun hle => ?_, fun hconf => ?_,
      fun s hs => ?_, hend⟩
    · rcases hst with h | h
      · exact absurd h hcomp
      · exact absurd h hcanc
    · exact absurd hle (not_le.mpr hnow)
    · rw [if_neg (by simpa [List.isEmpty_iff] using hconf)] at hun
      exact ⟨.conflict, hun⟩
    · rw [hun] at hs
      by_cases hc : (findConflicts store
          (w.new_technician_id.getD app.technician_id) w.new_date
          (some (w.new_date + app.duration))
          (some w.appointment_id)).isEmpty
      · rw [if_pos hc] at hs
        by_cases hg : ((rescheduleVals w).technician_id.isSome
            && !techOk (w.new_technician_id.getD app.technician_id)) = true
        · rw [if_pos (by simpa [rescheduleVals] using hg)] at hs
          exact Res.noConfusion hs
        · rw [if_neg (by simpa [rescheduleVals] using hg)] at hs
          exact (Res.ok.inj hs).symm
      · rw [if_neg hc] at hs
        exact Res.noConfusion hs

/-- C3 (amended): the conflict query returns exactly the active
(non-archived) appointments of the technician with a blocking status whose
interval meets the half-open overlap test s1 < e2 and s2 < e1 (touching
endpoints never conflict), and an excluded id is never returned. -/
theorem findConflicts_characterization :
    ∀ (store : List Appointment) (tech : Nat) (s1 e1 : ℚ) (excl : Option Nat)
      (a : Appointment),
      a ∈ findConflicts store tech s1 (some e1) excl ↔
        (a ∈ store ∧ a.active = true ∧ a.technician_id = tech
          ∧ (a.status = .confirmed ∨ a.status = .in_progress)
          ∧ a.scheduled_date < e1
          ∧ (∃ e2, end_datetime a = some e2 ∧ s1 < e2)
          ∧ ∀ i, excl = some i → a.id ≠ i) := by
  intro store tech s1 e1 excl a
  rw [findConflicts, List.mem_filter, and_congr_right_iff]
  intro _
  cases excl with
  | none =>
    cases h : end_datetime a with
    | none =>
      simp [dlt, dgt, blocking, h]
    | some e2 =>
      simp [dlt, dgt, blocking, h, Bool.and_eq_true, decide_eq_true_iff,
        and_assoc]
      tauto
  | some i =>
    cases h : end_datetime a with
    | none =>
      simp [dlt, dgt, blocking, h]
    | some e2 =>
      simp [dlt, dgt, blocking, h, Bool.and_eq_true, decide_eq_true_iff,
        and_assoc]
      tauto

/-- An archived appointment of technician 1, confirmed, scheduled [10, 12). -/
def archivedConfirmed : Appointment :=
  { mkApp 5 1 10 2 .confirmed with active := false }

/-- C3 counterexample: an archived appointment that meets every condition
the claim lists for the query interval [9, 12) (same technician, confirmed,
scheduled 10 < 12 and ending 12 > 9) is nevertheless not returned, because
the search implicitly filters active = True. -/
theorem archived_conflict_not_returned :
    archivedConfirmed.technician_id = 1
    ∧ archivedConfirmed.status = .confirmed
    ∧ archivedConfirmed.scheduled_date < 12
    ∧ end_datetime archivedConfirmed = some 12
    ∧ (9 : ℚ) < 12
    ∧ archivedConfirmed ∉ findConflicts [archivedConfirmed] 1 9 (some 12) none := by
  refine ⟨?_, ?_, ?_, ?_, ?_, ?_⟩ <;> with_unfolding_all decide

/-- The candidate slots the slot finder scans are strictly increasing. -/
theorem slotCands_pairwise (today : Int) :
    ((((List.range 7).map fun o : ℕ => today + (o : Int)).filter
        fun d => decide (d.emod 7 < 5)).flatMap fun d =>
      (List.range 9).map fun h : ℕ => (d : ℚ) * 24 + 8 + (h : ℚ)).Pairwise
      (· < ·) := by
  rw [List.pairwise_flatMap]
  constructor
  · intro d _
    refine List.Pairwise.map _ ?_ (List.pairwise_lt_range 9)
    intro h1 h2 hlt
    have hq : (h1 : ℚ) < (h2 : ℚ) := by exact_mod_cast hlt
    linarith
  · apply List.Pairwise.filter
    refine List.Pairwise.map _ ?_ (List.pairwise_lt_range 7)
    intro o1 o2 hlt x hx y hy
    simp only [List.mem_map, List.mem_range] at hx hy
    obtain ⟨h1, hh1, rfl⟩ := hx
    obtain ⟨h2, hh2, rfl⟩ := hy
    have hd : (today + (o1 : Int) : Int) + 1 ≤ today + (o2 : Int) := by omega
    have hdq : ((today + (o1 : Int) : Int) : ℚ) + 1
        ≤ ((today + (o2 : Int) : Int) : ℚ) := by exact_mod_cast hd
    have hq1 : (h1 : ℚ) ≤ 8 := by
      have h8 : h1 ≤ 8 := by omega
      exact_mod_cast h8
    have hq2 : (0 : ℚ) ≤ (h2 : ℚ) := by positivity
    linarith

/-- C4 (amended): the slot suggestion search returns a chronologically
ordered list of at most 5 whole-hour slots d * 24 + 8 + h with 0 ≤ h ≤ 8
(that is, hours 8 through 16, the range(8, 17) scan), on days of the
current 7-day window whose weekday index is below 5, each with an empty
conflict search for [slot, slot + duration); the scan starts at 08:00 of
the current day, not at the next full hour, so hours already past may be
returned. -/
theorem find_available_slots_spec :
    ∀ (store : List Appointment) (tech : Nat) (dur now : ℚ),
      (find_available_slots store tech dur now).length ≤ 5
      ∧ (find_available_slots store tech dur now).Pairwise (· < ·)
      ∧ ∀ s ∈ find_available_slots store tech dur now,
          ∃ (d : ℤ) (h : ℕ),
            dayIndex now ≤ d ∧ d < dayIndex now + 7 ∧ d.emod 7 < 5
            ∧ h < 9 ∧ s = (d : ℚ) * 24 + 8 + (h : ℚ)
            ∧ findConflicts store tech s (some (s + dur)) none = [] := by
  intro store tech dur now
  refine ⟨?_, ?_, ?_⟩
  · rw [find_available_slots, List.length_take]
    exact min_le_left _ _
  · exact List.Pairwise.sublist (List.take_sublist _ _)
      ((slotCands_pairwise (dayIndex now)).filter _)
  · intro s hs
    rw [find_available_slots] at hs
    have hs' := List.mem_of_mem_take hs
    rw [List.mem_filter] at hs'
    obtain ⟨hmem, hempty⟩ := hs'
    rw [List.mem_flatMap] at hmem
    obtain ⟨d, hd, hsd⟩ := hmem
    rw [List.mem_filter] at hd
    obtain ⟨hdmem, hdwork⟩ := hd
    rw [List.mem_map] at hdmem
    obtain ⟨o, ho, rfl⟩ := hdmem
    rw [List.mem_range] at ho
    rw [List.mem_map] at hsd
    obtain ⟨h, hh, rfl⟩ := hsd
    rw [List.mem_range] at hh
    refine ⟨dayIndex now + (o : Int), h, by omega, by omega, ?_, hh, rfl, ?_⟩
    · exact of_decide_eq_true hdwork
    · rwa [List.isEmpty_iff] at hempty

/-- C4 counterexample: at now = 12 (a Monday noon, hours since the Monday
epoch) with an empty store, the first suggested slot is 08:00 of the same
day, which lies before now and so before the next full hour (13:00). -/
theorem slot_before_next_full_hour_returned :
    (8 : ℚ) ∈ find_available_slots [] 1 1 12
    ∧ (8 : ℚ) < 12 ∧ (12 : ℚ) < 13 := by
  refine ⟨?_, ?_, ?_⟩ <;> with_unfolding_all decide

/-- C4 witness: the slot specification applied at a concrete input. -/
theorem find_available_slots_spec_witness :
    (find_available_slots [] 1 1 0).length ≤ 5 :=
  (find_available_slots_spec [] 1 1 0).1

/-- C5 counterexample: a draft appointment with duration 0 (model-level
validation never requires a positive duration) is rescheduled successfully,
but the resulting end_datetime is False (none) rather than the new start
plus the duration: the zero duration is falsy, and the conflict re-check is
also vacuous for it. -/
theorem zero_duration_reschedule_end_not_exact :
    action_reschedule (fun _ => true) [mkApp 1 1 30 0 .draft] 10 true
        { appointment_id := 1, new_date := 20, new_technician_id := none,
          conflicts_found := false }
      = .ok [mkApp 1 1 20 0 .draft]
    ∧ end_datetime (mkApp 1 1 20 0 .draft) = none
    ∧ (20 : ℚ) + 0 = 20 := by
  refine ⟨?_, ?_, ?_⟩ <;> with_unfolding_all decide

/-- C5 witness: the reschedule specification applied at a concrete
completed target. -/
theorem action_reschedule_spec_witness :
    ∃ e, action_reschedule (fun _ => true) [mkApp 1 1 30 1 .completed] 10
        true
        { appointment_id := 1, new_date := 20, new_technician_id := none,
          conflicts_found := false }
      = .error e :=
  (action_reschedule_spec (fun _ => true) [mkApp 1 1 30 1 .completed] 10
    true
    { appointment_id := 1, new_date := 20, new_technician_id := none,
      conflicts_found := false }
    (mkApp 1 1 30 1 .completed) rfl
    (by with_unfolding_all decide)).1 (Or.inl rfl)

/-- C6 (amended): the cancellation wizard always rejects a completed target
with a ValidationError, always rejects an already-cancelled target, and for
an in_progress target (with edit permission) raises the UserError guard
telling the operator to contact the technician; the wizard has no
acknowledge-and-proceed input, and every rejection rolls back, leaving the
status unchanged. -/
theorem action_cancel_spec :
    ∀ (store : List Appointment) (canEdit : Bool) (w : CancelWizard)
      (app : Appointment),
      (store.find? fun a => a.id == w.appointment_id) = some app →
      ((app.status = .completed →
          action_cancel_appointment store canEdit w
            = .error .cancel_completed)
       ∧ (app.status = .cancelled →
          action_cancel_appointment store canEdit w
            = .error .already_cancelled)
       ∧ (app.status = .in_progress → canEdit = true →
          action_cancel_appointment store canEdit w
              = .error .cancel_in_progress
            ∧ Err.isUserError .cancel_in_progress = true)) := by
  intro store canEdit w app hfind
  have hun : action_cancel_appointment store canEdit w
      = match validate_cancellation canEdit app with
        | some e => .error e
        | none =>
          .ok (store.map fun a =>
            if a.id == w.appointment_id then { a with status := .cancelled }
            else a) := by
    rw [action_cancel_appointment, hfind]
  refine ⟨fun hst => ?_, fun hst => ?_, fun hst hce => ?_⟩
  · rw [hun, validate_cancellation, if_neg (by simp [hst]), if_pos hst]
  · rw [hun, validate_cancellation, if_pos hst]
  · refine ⟨?_, rfl⟩
    rw [hun, validate_cancellation, if_neg (by simp [hst]),
      if_neg (by simp [hst]), if_neg (by simp [hce]), if_pos hst]

/-- Every combination of cancellation reason and toggle flags the wizard
offers (details strings fixed, since validation never reads them). -/
def allCancelConfigs : List CancelWizard :=
  ([CancelReason.customer_request, .customer_unavailable,
    .technician_unavailable, .emergency, .equipment_issue, .weather,
    .rescheduled, .duplicate, .other]).flatMap fun r =>
    [false, true].flatMap fun nc =>
      [false, true].flatMap fun nt =>
        [false, true].map fun rr =>
          { appointment_id := 1, reason := r, notify_customer := nc,
            notify_technician := nt, refund_required := rr }

/-- C6 counterexample: for an in_progress appointment, every reason and
flag combination of the wizard yields the same in-progress UserError — the
wizard exposes no acknowledgement through which the operator could proceed
with the cancellation, contrary to the claim. -/
theorem cancel_in_progress_never_proceeds :
    allCancelConfigs.all (fun w =>
      match action_cancel_appointment [mkApp 1 1 10 1 .in_progress] true w with
      | .error .cancel_in_progress => true
      | _ => false) = true := by
  with_unfolding_all decide

/-- C6 witness: the cancellation specification applied at a concrete
completed target. -/
theorem action_cancel_spec_witness :
    action_cancel_appointment [mkApp 1 1 10 1 .completed] true
        { appointment_id := 1, reason := .other }
      = .error .cancel_completed :=
  (action_cancel_spec [mkApp 1 1 10 1 .completed] true
    { appointment_id := 1, reason := .other }
    (mkApp 1 1 10 1 .completed) rfl).1 rfl

/-- The reason-based defaulting table as the spec states it:
(notify_customer, notify_technician, refund_required). -/
def specReasonDefaults : CancelReason → Bool × Bool × Bool
  | .customer_request => (false, true, true)
  | .technician_unavailable => (true, false, false)
  | .rescheduled => (false, false, false)
  | _ => (true, true, false)

/-- C7: selecting a cancellation reason presets the notification and refund
toggles exactly per the table of the spec, for every wizard state. -/
theorem onchange_reason_defaults_spec :
    ∀ w : CancelWizard,
      ((onchange_reason_defaults w).notify_customer,
       (onchange_reason_defaults w).notify_technician,
       (onchange_reason_defaults w).refund_required)
        = specReasonDefaults w.reason := by
  intro w
  cases h : w.reason <;>
    simp [onchange_reason_defaults, specReasonDefaults, h]

/-- A global settings record with the default field values of the module. -/
def globalSettings (i : Nat) : SettingsRecord :=
  { id := i, name := "Default Global Settings", technician_id := none }

/-- C8 counterexample: with one global (technician-less) settings record
stored, creating a second global record passes every constraint — the
uniqueness constraint is guarded by `if record.technician_id` and skips
technician-less records — so two global records coexist. -/
theorem second_global_settings_accepted :
    createSettings [globalSettings 1] (globalSettings 2)
      = .ok [globalSettings 1, globalSettings 2]
    ∧ (globalSettings 1).technician_id = none
    ∧ (globalSettings 2).technician_id = none := by
  refine ⟨?_, ?_, ?_⟩ <;> with_unfolding_all decide

/-- C8 (amended): creating a settings record whose technician is already
named by another stored record is rejected, and a successful create
preserves the per-technician uniqueness invariant; a second global record
is not rejected (see the counterexample). -/
theorem settings_unique_technician_spec :
    ∀ (store : List SettingsRecord) (r : SettingsRecord) (t : Nat),
      (r.technician_id = some t →
        (∃ x ∈ store, x.technician_id = some t ∧ x.id ≠ r.id) →
        ∃ e, createSettings store r = .error e)
      ∧ (PerTechUnique store → ∀ s, createSettings store r = .ok s →
          PerTechUnique s) := by
  intro store r t
  constructor
  · rintro ht ⟨x, hx, hxt, hxid⟩
    cases h1 : check_working_hours r with
    | some e => exact ⟨e, by rw [createSettings, h1]⟩
    | none =>
      cases h2 : check_working_days r with
      | some e => exact ⟨e, by rw [createSettings, h1, h2]⟩
      | none =>
        cases h3 : check_positive_values r with
        | some e => exact ⟨e, by rw [createSettings, h1, h2, h3]⟩
        | none =>
          have h4 : check_unique_technician (store ++ [r]) r
              = some .settings_duplicate_technician := by
            simp only [check_unique_technician, ht]
            rw [if_pos (List.any_eq_true.mpr
              ⟨x, List.mem_append.mpr (Or.inl hx), by simp [hxt, hxid]⟩)]
          exact ⟨_, by rw [createSettings, h1, h2, h3, h4]⟩
  · intro hu s hs
    rw [createSettings] at hs
    cases h1 : check_working_hours r with
    | some e => rw [h1] at hs; exact Res.noConfusion hs
    | none =>
    rw [h1] at hs
    cases h2 : check_working_days r with
    | some e => rw [h2] at hs; exact Res.noConfusion hs
    | none =>
    rw [h2] at hs
    cases h3 : check_positive_values r with
    | some e => rw [h3] at hs; exact Res.noConfusion hs
    | none =>
    rw [h3] at hs
    cases h4 : check_unique_technician (store ++ [r]) r with
    | some e => rw [h4] at hs; exact Res.noConfusion hs
    | none =>
    rw [h4] at hs
    have hseq : s = store ++ [r] := (Res.ok.inj hs).symm
    subst hseq
    have hkey : ∀ u : Nat, r.technician_id = some u →
        ∀ x ∈ store, x.technician_id = some u → x.id = r.id := by
      intro u hru x hx hxu
      by_contra hne
      simp only [check_unique_technician, hru] at h4
      rw [if_pos (List.any_eq_true.mpr
        ⟨x, List.mem_append.mpr (Or.inl hx), by simp [hxu, hne]⟩)] at h4
      exact Option.noConfusion h4
    intro a ha b hb hab u hau
    rw [List.mem_append, List.mem_singleton] at ha hb
    rcases ha with ha | ha <;> rcases hb with hb | hb
    · exact hu a ha b hb hab u hau
    · subst hb
      intro hbu
      exact hab (hkey u hbu a ha hau)
    · subst ha
      intro hbu
      exact hab ((hkey u hau b hb hbu).symm)
    · subst ha
      subst hb
      exact absurd rfl hab

/-- C8 witness: the uniqueness specification applied at a concrete
duplicate-technician create. -/
theorem settings_unique_technician_spec_witness :
    ∃ e, createSettings
        [{ id := 1, name := "T", technician_id := some 7 }]
        { id := 2, name := "T2", technician_id := some 7 } = .error e :=
  (settings_unique_technician_spec
    [{ id := 1, name := "T", technician_id := some 7 }]
    { id := 2, name := "T2", technician_id := some 7 } 7).1 rfl
    ⟨{ id := 1, name := "T", technician_id := some 7 },
      List.mem_singleton.mpr rfl, rfl, by decide⟩

/-- The reminder selection only depends on now through the window. -/
theorem reminderDue_congr (now1 now2 : ℚ) (a : Appointment)
    (hwin : reminderWindow now1 = reminderWindow now2) :
    reminderDue now1 a = reminderDue now2 a := by
  rw [reminderDue, reminderDue, hwin]

/-- C9: the reminder sweep is idempotent: over the same 24-hour-ahead
window, a second run selects nothing (every appointment the first run
reminded now has reminder_sent = true, and everything else was already
unselected), so it sends no reminder and leaves the store unchanged; hence
at most one reminder is sent per appointment across the two runs. -/
theorem check_upcoming_reminders_idempotent :
    ∀ (templateExists : Bool) (store : List Appointment) (now1 now2 : ℚ),
      dayIndex (now1 + 24) = dayIndex (now2 + 24) →
      check_upcoming_reminders templateExists
          (check_upcoming_reminders templateExists store now1).1 now2
        = ((check_upcoming_reminders templateExists store now1).1, []) := by
  intro tpl store now1 now2 hday
  have hwin : reminderWindow now1 = reminderWindow now2 := by
    rw [reminderWindow, reminderWindow, hday]
  cases tpl with
  | false => rfl
  | true =>
    have hpoint : ∀ a : Appointment,
        reminderDue now2
            (if reminderDue now1 a then { a with reminder_sent := true }
             else a)
          = false := by
      intro a
      by_cases hd : reminderDue now1 a
      · rw [if_pos hd]
        rw [reminderDue]
        simp
      · rw [if_neg hd]
        rw [← reminderDue_congr now1 now2 a hwin]
        simpa using hd
    have hfil : ((store.map fun a =>
        if reminderDue now1 a then { a with reminder_sent := true }
        else a).filter (reminderDue now2)) = [] := by
      rw [List.filter_eq_nil_iff]
      intro b hb
      rw [List.mem_map] at hb
      obtain ⟨a, _, rfl⟩ := hb
      simp [hpoint a]
    have hmap : ((store.map fun a =>
        if reminderDue now1 a then { a with reminder_sent := true }
        else a).map fun a =>
          if reminderDue now2 a then { a with reminder_sent := true }
          else a)
        = store.map fun a =>
            if reminderDue now1 a then { a with reminder_sent := true }
            else a := by
      rw [List.map_map]
      apply List.map_congr_left
      intro a _
      simp only [Function.comp]
      rw [if_neg (by simp [hpoint a])]
    have hfirst : (check_upcoming_reminders true store now1).1
        = store.map fun a =>
            if reminderDue now1 a then { a with reminder_sent := true }
            else a := by
      rw [check_upcoming_reminders, if_pos rfl]
    rw [hfirst, check_upcoming_reminders, if_pos rfl, hfil, hmap]
    rfl

/-- C9 witness: the idempotence theorem applied at a concrete store and two
instants of the same day. -/
theorem check_upcoming_reminders_idempotent_witness :
    check_upcoming_reminders true
        (check_upcoming_reminders true
          [{ mkApp 1 1 30 1 .confirmed with send_reminder_email := true }]
          1).1 2
      = ((check_upcoming_reminders true
          [{ mkApp 1 1 30 1 .confirmed with send_reminder_email := true }]
          1).1, []) :=
  check_upcoming_reminders_idempotent true
    [{ mkApp 1 1 30 1 .confirmed with send_reminder_email := true }] 1 2
    (by with_unfolding_all decide)

/-- C10: a zero duration is falsy, so end_datetime is False (none); a
record whose end_datetime is NULL never satisfies the conflict-search term
end_datetime > interval-start, so even a confirmed zero-duration
appointment is never returned as a conflict; and model-level create never
requires duration > 0: with a future date and a valid technician, creating
a zero-duration appointment succeeds (its own conflict check is vacuous,
its end_datetime being NULL). -/
theorem zero_duration_spec :
    ∀ (a : Appointment) (store : List Appointment) (tech : Nat) (qs : ℚ)
      (qe : Option ℚ) (excl : Option Nat) (now : ℚ) (techOk : Nat → Bool),
      (a.duration = 0 → end_datetime a = none)
      ∧ (end_datetime a = none → a ∉ findConflicts store tech qs qe excl)
      ∧ (a.duration = 0 → now < a.scheduled_date →
          techOk a.technician_id = true →
          createAppointment techOk store now a = .ok (store ++ [a])) := by
  intro a store tech qs qe excl now techOk
  have hend : a.duration = 0 → end_datetime a = none := by
    intro h0
    simp [end_datetime, h0]
  refine ⟨hend, ?_, ?_⟩
  · intro hnone hmem
    rw [findConflicts, List.mem_filter] at hmem
    obtain ⟨-, hp⟩ := hmem
    rw [hnone] at hp
    simp [dgt] at hp
  · intro h0 hfut htech
    have hval : check_appointment_validity (store ++ [a]) now a = none := by
      rw [check_appointment_validity, if_neg (not_le.mpr hfut)]
      rw [hend h0]
      rw [if_pos]
      rw [findConflicts, List.isEmpty_iff, List.filter_eq_nil_iff]
      intro b _
      simp [dlt]
    rw [createAppointment, hval, check_technician_group, if_pos htech]

/-- C10 witness: the zero-duration specification applied to a concrete
confirmed zero-duration appointment. -/
theorem zero_duration_spec_witness :
    end_datetime (mkApp 1 1 10 0 .confirmed) = none
    ∧ createAppointment (fun _ => true) [] 0 (mkApp 1 1 10 0 .confirmed)
      = .ok [mkApp 1 1 10 0 .confirmed] := by
  have h := zero_duration_spec (mkApp 1 1 10 0 .confirmed) [] 1 0 none none 0
    (fun _ => true)
  exact ⟨h.1 rfl, h.2.2 rfl (by with_unfolding_all decide) rfl⟩

end SupportCenter
